import Mathlib

/-!
Shallow embedding of the tile-world repository (config parser, tile validator,
scene/world model, hover event handling) and proofs about the claims of its
specification.

JavaScript string operations used by the source (`trim`, single-character
`split`, `startsWith`, `slice(1, -1)`) are modelled directly on `List Char`
so that every definition is executable and reduces in the kernel.  All source
splits use one-character separators, which `jsSplit` models exactly.
-/

namespace TileWorld

/-- Character predicate for the JS whitespace characters relevant to `trim`
on the ASCII inputs of this format: tab, LF, VT, FF, CR and space. -/
def isJsSpace (c : Char) : Bool :=
  c.toNat = 9 || c.toNat = 10 || c.toNat = 11 || c.toNat = 12 || c.toNat = 13 || c.toNat = 32

/-- JS `String.prototype.trim`: remove leading and trailing whitespace. -/
def jsTrim (s : String) : String :=
  String.mk (((s.toList.dropWhile isJsSpace).reverse.dropWhile isJsSpace).reverse)

/-- Helper for `jsSplit`: split a character list on a separator character.
The accumulator holds the current field in reverse. -/
def splitCharAux (sep : Char) : List Char → List Char → List (List Char)
  | [], acc => [acc.reverse]
  | c :: cs, acc =>
    if c = sep then acc.reverse :: splitCharAux sep cs []
    else splitCharAux sep cs (c :: acc)

/-- JS `String.prototype.split` with a one-character separator
(`split('=')`, `split(';')`, `split(',')`, `split(':')`, `split('.')`,
`split('\n')` are the only splits the source performs). -/
def jsSplit (s : String) (sep : Char) : List String :=
  (splitCharAux sep s.toList []).map (fun l => String.mk l)

/-- Helper for `leadsWith`: Boolean list-level test that the first list is an
initial segment of the second. -/
def listLeads : List Char → List Char → Bool
  | [], _ => true
  | _ :: _, [] => false
  | p :: ps, c :: cs => p = c && listLeads ps cs

/-- JS `s.startsWith(pat)`. -/
def leadsWith (s pat : String) : Bool :=
  listLeads pat.toList s.toList

/-- JS `s.slice(1, -1)`: drop the first and the last character. -/
def sliceInner (s : String) : String :=
  String.mk ((s.toList.drop 1).dropLast)

/-- JS string truthiness of an optional string: `undefined` and `""` are falsy. -/
def strTruthy : Option String → Bool
  | none => false
  | some s => !s.toList.isEmpty

/-- `[A-Z]` as code points 65–90. -/
def isAsciiUpper (c : Char) : Bool := 65 ≤ c.toNat && c.toNat ≤ 90

/-- `[a-z]` as code points 97–122. -/
def isAsciiLower (c : Char) : Bool := 97 ≤ c.toNat && c.toNat ≤ 122

/-- `[A-Za-z]`. -/
def isAsciiAlpha (c : Char) : Bool := isAsciiUpper c || isAsciiLower c

/-- `[0-9]` (JS `\d` without flags) as code points 48–57. -/
def isAsciiDigit (c : Char) : Bool := 48 ≤ c.toNat && c.toNat ≤ 57

/-- Full match of the regex `^[A-Za-z]+\d+$` (TileValidator.validateTileFormat).
Since the letter and digit classes are disjoint, the greedy alpha run followed
by an all-digit remainder is exactly the regex language; `matchesTileCode_iff`
below proves this. -/
def matchesTileCode (s : String) : Bool :=
  let cs := s.toList
  let alphas := cs.takeWhile isAsciiAlpha
  let rest := cs.dropWhile isAsciiAlpha
  !alphas.isEmpty && !rest.isEmpty && rest.all isAsciiDigit

/-- First match of `/^[A-Z]+/` (`?.[0] ?? null` in
SceneBuilder.getTileMetadataStack): the maximal leading run of uppercase
letters, or `none` when the first character is not uppercase. -/
def upperRun (s : String) : Option String :=
  let pre := s.toList.takeWhile isAsciiUpper
  if pre.isEmpty then none else some (String.mk pre)

/-- The error codes of TWErrorCode.ts.  `INVALID_TILE_FORMAT` models the
source's code for invalid tile syntax (named after the validator's message). -/
inductive TWErrorCode where
  | MISSING_KEY_VALUE
  | MISSING_SECTION
  | UNKNOWN_SECTION
  | INVALID_TILE_FORMAT
  | DUPLICATE_TILESET
  | DUPLICATE_LAYER
  | UNKNOWN_PROP_TYPE
  | UNKNOWN_PROP_FORMAT
  | NO_CONFIG_PROVIDED
  | INVALID_QUERY
  | MISSING_OR_INVALID_CONFIG
  | INVALID_TILE_CODE
  | TILESET_NOT_FOUND
  | FAILED_TO_LOAD_IMAGE
  | LAYER_ALREADY_EXISTS
  | LAYER_NOT_FOUND
  | INVALID_TILE_POSITION
deriving DecidableEq, Repr

/-- TWError: tagged error with code, message, optional context and component
(TWError.ts; TWErrorHandler.throw constructs and throws it). -/
structure TWError where
  code : TWErrorCode
  message : String
  context : Option String
  component : Option String
deriving DecidableEq, Repr

/-- Extract the error code of a failed computation. -/
def errCode? {α : Type} : Except TWError α → Option TWErrorCode
  | .error e => some e.code
  | .ok _ => none

/-- TileValidator.validateTileFormat: trim, accept the empty marker "0",
otherwise require a full match of `^[A-Za-z]+\d+$`; any other shape throws
INVALID_TILE_SYNTAX with the offending (trimmed) string in the message and
the caller-supplied context. -/
def validateTileFormat (tile ctx : String) : Except TWError Unit :=
  let trimmed := jsTrim tile
  if trimmed = "0" then .ok ()
  else if matchesTileCode trimmed then .ok ()
  else .error
    { code := .INVALID_TILE_FORMAT
    , message := "Invalid tile format: \"" ++ trimmed ++ "\". Expected like G0 or S1 or 0 for empty tiles."
    , context := some ctx
    , component := some "TileValidator" }

/-- A tile code the validator accepts: the empty marker or the regex language. -/
def tileCodeOk (c : String) : Prop :=
  jsTrim c = "0" ∨ matchesTileCode (jsTrim c) = true

instance (c : String) : Decidable (tileCodeOk c) := by
  unfold tileCodeOk; infer_instance

/-!
## Config parser (TWMConfigParser.ts)

`parseConfig` there fetches the URL and then runs a line-oriented loop over
the raw text; the embedding takes the raw text directly.  JS objects keyed by
strings (`Record<string, ...>`) are modelled as insertion-ordered association
lists with JS assignment semantics (`recSet`).
-/

/-- Result of the JS `Number()` coercion, on the fragment of inputs this
format uses: a whitespace-only string is 0, an optional sign followed by
decimal digits is that integer, and everything else is NaN.  (Fractional,
exponent and hex forms never occur in the claims and are mapped to NaN.) -/
inductive JSNum where
  | nan : JSNum
  | num (v : Int) : JSNum
deriving DecidableEq, Repr

/-- Decimal value of a digit list. -/
def digitsVal (cs : List Char) : Nat :=
  cs.foldl (fun n c => 10 * n + (c.toNat - 48)) 0

/-- JS `Number(value)` on the fragment described at `JSNum`. -/
def jsNumber (s : String) : JSNum :=
  let t := jsTrim s
  if t.toList.isEmpty then .num 0
  else
    let signed : Int × String :=
      if leadsWith t "-" then (-1, String.mk (t.toList.drop 1))
      else if leadsWith t "+" then (1, String.mk (t.toList.drop 1))
      else (1, t)
    if !signed.2.toList.isEmpty && signed.2.toList.all isAsciiDigit then
      .num (signed.1 * (digitsVal signed.2.toList : Int))
    else .nan

/-- A JS object with string values: insertion-ordered key/value pairs. -/
abbrev JsObj := List (String × String)

/-- JS object read `m[k]`. -/
def recGet {α : Type} (m : List (String × α)) (k : String) : Option α :=
  (m.find? (fun p => p.fst == k)).map (fun p => p.snd)

/-- JS object write `m[k] = v`: update in place if the key exists (keeping
its position), else append. -/
def recSet {α : Type} (m : List (String × α)) (k : String) (v : α) : List (String × α) :=
  if m.any (fun p => p.fst == k) then
    m.map (fun p => if p.fst == k then (k, v) else p)
  else m ++ [(k, v)]

/-- JS `Object.assign(dst, src)` / spread: copy every entry of `src` into
`dst` in order. -/
def recAssign (dst src : JsObj) : JsObj :=
  src.foldl (fun d p => recSet d p.fst p.snd) dst

/-- `m[idf] ??= {}; m[idf][pk] = v` (TWMConfigParser.handleProps). -/
def orecUpdate (m : List (String × JsObj)) (idf pk v : String) : List (String × JsObj) :=
  recSet m idf (recSet ((recGet m idf).getD []) pk v)

/-- TWMMainConfig as the parser actually builds it: the object starts empty
and fields are filled one key at a time, so each may be absent. -/
structure MainDraft where
  tileSize : Option JSNum
  width : Option JSNum
  height : Option JSNum
deriving DecidableEq, Repr

/-- TWMTileset. -/
structure TWMTileset where
  id : String
  tileset : String
  short : String
deriving DecidableEq, Repr

/-- `Partial<TWMTileset>` (the in-progress tileset record). -/
structure TilesetDraft where
  id : Option String
  tileset : Option String
  short : Option String
deriving DecidableEq, Repr

/-- TWMLayer. -/
structure TWMLayer where
  name : String
  tiles : List (List String)
deriving DecidableEq, Repr

/-- `Partial<TWMLayer>` (the in-progress layer record). -/
structure LayerDraft where
  name : Option String
  tiles : Option (List (List String))
deriving DecidableEq, Repr

/-- TWMPropsMap: the three props maps. -/
structure TWMProps where
  tilesets : List (String × JsObj)
  layers : List (String × JsObj)
  tiles : List (String × JsObj)
deriving DecidableEq, Repr

/-- `Partial<TWMConfig>` as initialised in parseConfig. -/
structure ConfigDraft where
  main : Option MainDraft
  layers : List TWMLayer
  tilesets : List TWMTileset
  props : TWMProps
deriving DecidableEq, Repr

/-- TWMConfig, as produced by the final cast of parseConfig.  `main` keeps its
Option-valued fields because the cast never checks they were all assigned. -/
structure TWMConfig where
  main : MainDraft
  layers : List TWMLayer
  tilesets : List TWMTileset
  props : TWMProps
deriving DecidableEq, Repr

/-- ParserState. -/
structure ParserState where
  currentSection : String
  currentLayer : LayerDraft
  tempTileset : TilesetDraft
  config : ConfigDraft
deriving DecidableEq, Repr

/-- The initial parser state of TWMConfigParser.parseConfig. -/
def initState : ParserState :=
  { currentSection := ""
  , currentLayer := ⟨none, none⟩
  , tempTileset := ⟨none, none, none⟩
  , config := ⟨none, [], [], ⟨[], [], []⟩⟩ }

/-- TWMConfigParser.handleSectionHeader. -/
def handleSectionHeader (line : String) (st : ParserState) : Except TWError ParserState :=
  let sec := sliceInner line
  if sec = "main" then
    .ok { st with currentSection := "main" }
  else if leadsWith sec "tileset:" then
    .ok { st with
            currentSection := "tileset",
            tempTileset := { id := some ((jsSplit sec ':').getD 1 ""), tileset := none, short := none } }
  else if leadsWith sec "layer:" then
    let cfg :=
      if strTruthy st.currentLayer.name then
        { st.config with layers := st.config.layers ++
            [⟨st.currentLayer.name.getD "", st.currentLayer.tiles.getD []⟩] }
      else st.config
    .ok { st with
            config := cfg,
            currentSection := "layer",
            currentLayer := { name := some ((jsSplit sec ':').getD 1 ""), tiles := some [] } }
  else if sec = "props" then
    .ok { st with currentSection := "props" }
  else
    .error { code := .UNKNOWN_SECTION
           , message := "Unknown section header: [" ++ sec ++ "]"
           , context := some line, component := some "Parser" }

/-- TWMConfigParser.handleMain.  Note the order of the source: `config.main`
is created (empty) before the key is checked, and the value is stored through
`Number(value)` with no positivity or integrality check. -/
def handleMain (key value : String) (cfg : ConfigDraft) : Except TWError ConfigDraft :=
  let cfg := if cfg.main.isNone then { cfg with main := some ⟨none, none, none⟩ } else cfg
  if !((["tileSize", "width", "height"] : List String).contains key) then
    .error { code := .MISSING_KEY_VALUE
           , message := "Unknown main property \"" ++ key ++ "\""
           , context := some key, component := some "Parser" }
  else
    let m := cfg.main.getD ⟨none, none, none⟩
    let m :=
      if key = "tileSize" then { m with tileSize := some (jsNumber value) }
      else if key = "width" then { m with width := some (jsNumber value) }
      else { m with height := some (jsNumber value) }
    .ok { cfg with main := some m }

/-- JS truthiness of the three fields of the in-progress tileset record
(`id && tileset && short`): all present and nonempty. -/
def tilesetComplete (t : TilesetDraft) : Bool :=
  strTruthy t.id && strTruthy t.tileset && strTruthy t.short

/-- TWMConfigParser.handleTileset: record the `tileset` / `short` keys
(every other key is ignored), and flush the record once complete, failing on
a duplicate short or id. -/
def handleTileset (key value : String) (st : ParserState) : Except TWError ParserState :=
  let t := st.tempTileset
  let t :=
    if key = "tileset" then { t with tileset := some value }
    else if key = "short" then { t with short := some value }
    else t
  if tilesetComplete t then
    let sh := t.short.getD ""
    let idv := t.id.getD ""
    if st.config.tilesets.any (fun ts => ts.short == sh) then
      .error { code := .DUPLICATE_TILESET
             , message := "Duplicate tileset short \"" ++ sh ++ "\""
             , context := some value, component := some "Parser" }
    else if st.config.tilesets.any (fun ts => ts.id == idv) then
      .error { code := .DUPLICATE_TILESET
             , message := "Duplicate tileset id \"" ++ idv ++ "\""
             , context := some value, component := some "Parser" }
    else
      .ok { st with
              tempTileset := ⟨none, none, none⟩,
              config := { st.config with tilesets :=
                st.config.tilesets ++ [⟨idv, t.tileset.getD "", sh⟩] } }
  else
    .ok { st with tempTileset := t }

/-- Left-to-right effectful map over a list, propagating the first error —
the behaviour of the source's `Array.map` with a throwing callback. -/
def mapExc {α β : Type} (f : α → Except TWError β) : List α → Except TWError (List β)
  | [] => .ok []
  | a :: as =>
    match f a with
    | .error e => .error e
    | .ok b =>
      match mapExc f as with
      | .error e => .error e
      | .ok bs => .ok (b :: bs)

/-- One cell of a `tiles=` row (TWMConfigParser.handleLayer): trim, validate
with the row string as context, and keep the trimmed cell. -/
def cellOf (row cell : String) : Except TWError String :=
  let trimmed := jsTrim cell
  match validateTileFormat trimmed row with
  | .error e => .error e
  | .ok _ => .ok trimmed

/-- One row of a `tiles=` value: split on `,` and process every cell. -/
def rowOf (row : String) : Except TWError (List String) :=
  mapExc (cellOf row) (jsSplit row ',')

/-- The grid computed from a `tiles=` value (TWMConfigParser.handleLayer):
split on `;` into rows, trim each, discard blank rows (`filter(Boolean)`),
split each row on `,`, trim each cell and validate it with the row string as
context. -/
def tilesGrid (value : String) : Except TWError (List (List String)) :=
  let rows := ((jsSplit value ';').map jsTrim).filter (fun r => !r.toList.isEmpty)
  mapExc rowOf rows

/-- TWMConfigParser.handleLayer.  The initial `if (!currentLayer.tiles)` guard
of the source is kept even though every entry into the layer section has
already initialised `tiles` via the section header. -/
def handleLayer (key value : String) (st : ParserState) : Except TWError ParserState :=
  let st :=
    if st.currentLayer.tiles.isNone then
      { st with currentLayer := { st.currentLayer with tiles := some [] } }
    else st
  if key = "tiles" then
    if st.config.layers.any (fun t => some t.name == st.currentLayer.name) then
      .error { code := .DUPLICATE_LAYER
             , message := "Duplicate layer name \"" ++ st.currentLayer.name.getD "" ++ "\""
             , context := some value, component := some "Parser" }
    else
      match tilesGrid value with
      | .error e => .error e
      | .ok g => .ok { st with currentLayer := { st.currentLayer with tiles := some g } }
  else
    .ok st

/-- TWMConfigParser.handleProps: the key must have at least three `.`-separated
parts; only the first three (type, identifier, propKey) are used. -/
def handleProps (key value : String) (cfg : ConfigDraft) : Except TWError ConfigDraft :=
  let parts := jsSplit key '.'
  if parts.length < 3 then
    .error { code := .UNKNOWN_PROP_FORMAT
           , message := "Invalid props key format"
           , context := some key, component := some "Parser" }
  else
    let ty := parts.getD 0 ""
    let idf := parts.getD 1 ""
    let pk := parts.getD 2 ""
    if ty = "tileset" then
      .ok { cfg with props := { cfg.props with tilesets := orecUpdate cfg.props.tilesets idf pk value } }
    else if ty = "layer" then
      .ok { cfg with props := { cfg.props with layers := orecUpdate cfg.props.layers idf pk value } }
    else if ty = "tile" then
      .ok { cfg with props := { cfg.props with tiles := orecUpdate cfg.props.tiles idf pk value } }
    else
      .error { code := .UNKNOWN_PROP_TYPE
             , message := "Unknown props type \"" ++ ty ++ "\""
             , context := some key, component := some "Parser" }

/-- TWMConfigParser.handleKeyValue: dispatch on the current section. -/
def handleKeyValue (key value : String) (st : ParserState) : Except TWError ParserState :=
  if st.currentSection = "main" then
    match handleMain key value st.config with
    | .error e => .error e
    | .ok c => .ok { st with config := c }
  else if st.currentSection = "tileset" then
    handleTileset key value st
  else if st.currentSection = "layer" then
    handleLayer key value st
  else if st.currentSection = "props" then
    match handleProps key value st.config with
    | .error e => .error e
    | .ok c => .ok { st with config := c }
  else
    .error { code := .UNKNOWN_SECTION
           , message := "Unhandled section \"" ++ st.currentSection ++ "\""
           , context := some key, component := some "Parser" }

/-- One iteration of the parseConfig line loop: trim, skip blank and comment
lines, dispatch section headers, otherwise destructure
`const [keyRaw, valueRaw] = line.split('=')` — so `valueRaw` is the text
between the first and second `=` — and fail with MISSING_KEY_VALUE when the
line holds no `=`. -/
def parseLine (st : ParserState) (rawLine : String) : Except TWError ParserState :=
  let line := jsTrim rawLine
  if line.toList.isEmpty then .ok st
  else if leadsWith line "#" then .ok st
  else if leadsWith line "[" then handleSectionHeader line st
  else
    match (jsSplit line '=').get? 1 with
    | none =>
      .error { code := .MISSING_KEY_VALUE
             , message := "Expected key=value format"
             , context := some line, component := some "Parser" }
    | some valueRaw =>
      handleKeyValue (jsTrim ((jsSplit line '=').headD "")) (jsTrim valueRaw) st

/-- The end-of-input step of parseConfig: flush a still-in-progress layer
(the in-progress tileset is NOT flushed), then fail with MISSING_SECTION if
no main settings were ever stored. -/
def finalizeParse (st : ParserState) : Except TWError TWMConfig :=
  let layers :=
    if strTruthy st.currentLayer.name then
      st.config.layers ++ [⟨st.currentLayer.name.getD "", st.currentLayer.tiles.getD []⟩]
    else st.config.layers
  match st.config.main with
  | none =>
    .error { code := .MISSING_SECTION
           , message := "Missing [main] section"
           , context := none, component := some "Parser" }
  | some m => .ok ⟨m, layers, st.config.tilesets, st.config.props⟩

/-- The line loop of parseConfig. -/
def parseLines (st : ParserState) : List String → Except TWError ParserState
  | [] => .ok st
  | l :: ls =>
    match parseLine st l with
    | .error e => .error e
    | .ok st2 => parseLines st2 ls

/-- TWMConfigParser.parseConfig on the fetched text: split into lines, run the
line loop from the initial state, and finalize. -/
def parseConfig (raw : String) : Except TWError TWMConfig :=
  match parseLines initState (jsSplit raw '\n') with
  | .error e => .error e
  | .ok st => finalizeParse st

/-!
## Scene builder / world model (SceneBuilderUtils.ts, class SceneBuilder)

The DOM side effects (element creation, re-render requests) are outside the
model; what is embedded is the state the class owns — config, runtime layers,
last hovered cell — and the state transitions and queries of its methods.
`SceneBuilder` here consumes an already-valid config whose main settings are
numbers, as the class does.  Coordinates and dimensions are `Int` (JS
numbers); negative array indices read as `undefined` (`jsIndex`).
-/

/-- JS `l[i]` for a possibly negative index. -/
def jsIndex {α : Type} (l : List α) (i : Int) : Option α :=
  if 0 ≤ i then l.get? i.toNat else none

/-- `layer.tiles?.[y]?.[x] ?? "0"`. -/
def cellAt (g : List (List String)) (x y : Int) : String :=
  ((jsIndex g y).bind (fun row => jsIndex row x)).getD "0"

/-- `layer.tiles[y][x] = v` (in range; callers bounds-check first). -/
def setCell (g : List (List String)) (x y : Int) (v : String) : List (List String) :=
  g.set y.toNat ((g.getD y.toNat []).set x.toNat v)

/-- The main settings as the scene builder consumes them. -/
structure SBMain where
  tileSize : Int
  width : Int
  height : Int
deriving DecidableEq, Repr

/-- The config object a SceneBuilder holds (read-only). -/
structure SBConfig where
  main : SBMain
  layers : List TWMLayer
  tilesets : List TWMTileset
  props : TWMProps
deriving DecidableEq, Repr

/-- The state a SceneBuilder instance owns (hidden layers and subscriber
lists are irrelevant to the claims and omitted;
`lastHoveredTile` is treated separately in the hover step relation). -/
structure SceneBuilder where
  config : SBConfig
  runtimeLayers : List TWMLayer
deriving DecidableEq, Repr

/-- SceneBuilderUtils.createEmpty2DArray: height rows of width cells, all
holding the empty marker "0". -/
def createEmpty2DArray (width height : Int) : List (List String) :=
  List.replicate height.toNat (List.replicate width.toNat "0")

/-- SceneBuilder.addRuntimeLayerToDOM — its state effect: it creates a FRESH
empty grid and pushes a SECOND layer record onto `runtimeLayers` (besides
appending the layer element to the DOM). -/
def addRuntimeLayerToDOM (sb : SceneBuilder) (layerName : String) : SceneBuilder :=
  let tiles := createEmpty2DArray sb.config.main.width sb.config.main.height
  { sb with runtimeLayers := sb.runtimeLayers ++ [⟨layerName, tiles⟩] }

/-- SceneBuilder.createRuntimeLayer: fail LAYER_ALREADY_EXISTS on a name
collision with any static or runtime layer; otherwise push an empty grid
layer and call `addRuntimeLayerToDOM` (which pushes again). -/
def createRuntimeLayer (sb : SceneBuilder) (layerName : String) : Except TWError SceneBuilder :=
  if sb.config.layers.any (fun l => l.name == layerName)
      || sb.runtimeLayers.any (fun l => l.name == layerName) then
    .error { code := .LAYER_ALREADY_EXISTS
           , message := "Layer with name \"" ++ layerName ++ "\" already exists."
           , context := some ("layerName: " ++ layerName)
           , component := some "SceneBuilder" }
  else
    let tiles := createEmpty2DArray sb.config.main.width sb.config.main.height
    let sb2 := { sb with runtimeLayers := sb.runtimeLayers ++ [⟨layerName, tiles⟩] }
    .ok (addRuntimeLayerToDOM sb2 layerName)

/-- Replace the first layer with the given name (the one `find?` returns,
which the source mutates in place). -/
def updateFirstLayer (ls : List TWMLayer) (n : String) (f : TWMLayer → TWMLayer) : List TWMLayer :=
  match ls with
  | [] => []
  | l :: rest => if l.name == n then f l :: rest else l :: updateFirstLayer rest n f

/-- SceneBuilder.addTile: validate the tile code first, then require a
runtime layer of that name (LAYER_NOT_FOUND otherwise — static layers are
not found here), then bounds-check (INVALID_TILE_POSITION), then set the
cell of that runtime layer. -/
def addTile (sb : SceneBuilder) (layerName : String) (x y : Int) (tileCode : String) :
    Except TWError SceneBuilder :=
  match validateTileFormat tileCode ("addTile: " ++ tileCode) with
  | .error e => .error e
  | .ok _ =>
    match sb.runtimeLayers.find? (fun l => l.name == layerName) with
    | none =>
      .error { code := .LAYER_NOT_FOUND
             , message := "Layer \"" ++ layerName ++ "\" does not exist."
             , context := some ("layerName: " ++ layerName)
             , component := some "SceneBuilder" }
    | some _ =>
      if x < 0 ∨ x ≥ sb.config.main.width ∨ y < 0 ∨ y ≥ sb.config.main.height then
        .error { code := .INVALID_TILE_POSITION
               , message := "Invalid position for layer \"" ++ layerName ++ "\"."
               , context := some ("layerName: " ++ layerName)
               , component := some "SceneBuilder" }
      else
        .ok { sb with
                runtimeLayers := updateFirstLayer sb.runtimeLayers layerName
                  (fun l => { l with tiles := setCell l.tiles x y tileCode }) }

/-- SceneBuilder.getTileCodeFromLayer: first matching runtime layer, else
first matching static layer, reading `tiles?.[y]?.[x] ?? "0"`. -/
def getTileCodeFromLayer (sb : SceneBuilder) (layerName : String) (x y : Int) : String :=
  match (sb.runtimeLayers.find? (fun l => l.name == layerName)).orElse
      (fun _ => sb.config.layers.find? (fun l => l.name == layerName)) with
  | none => "0"
  | some layer => cellAt layer.tiles x y

/-- The JS TypeError raised when the source dereferences `tileset!` although
no tileset matched (`tileset!.id` / `props.tilesets[tileset!.id]`). -/
inductive JsError where
  | typeError : JsError
deriving DecidableEq, Repr

/-- TileMetadata (interfaces/TileMetadata.ts). -/
structure TileMetadata where
  tile : String
  layerName : String
  tilesetShort : String
  tilesetId : String
  props : JsObj
deriving DecidableEq, Repr

/-- One layer's contribution to the metadata stack at (x, y)
(the body of the loop of SceneBuilder.getTileMetadataStack):
`none` when the cell is empty (falsy or the marker "0"); for a non-empty cell
the tileset short is the leading `[A-Z]+` run of the code (NOT the full
alpha prefix), the tileset is looked up by that short, and resolution
failure — including every lowercase prefix, for which the match is `null` —
makes `tileset!.id` throw a TypeError. -/
def metadataStep (tilesets : List TWMTileset) (props : TWMProps) (layer : TWMLayer)
    (x y : Int) : Except JsError (Option TileMetadata) :=
  let tileCode := cellAt layer.tiles x y
  if tileCode.toList.isEmpty || tileCode == "0" then .ok none
  else
    match upperRun tileCode with
    | none => .error .typeError
    | some short =>
      match tilesets.find? (fun ts => ts.short == short) with
      | none => .error .typeError
      | some ts =>
        let tileProps := (recGet props.tiles tileCode).getD []
        let layerProps := (recGet props.layers layer.name).getD []
        let tilesetProps := (recGet props.tilesets ts.id).getD []
        let combinedProps := recAssign (recAssign (recAssign [] tilesetProps) layerProps) tileProps
        .ok (some ⟨tileCode, layer.name, short, ts.id, combinedProps⟩)

/-- The loop of getTileMetadataStack over `[...layers, ...runtimeLayers]`,
appending one record per non-empty cell, bottom layer to top layer. -/
def stackLoop (tilesets : List TWMTileset) (props : TWMProps) (x y : Int) :
    List TWMLayer → Except JsError (List TileMetadata)
  | [] => .ok []
  | layer :: rest =>
    match metadataStep tilesets props layer x y with
    | .error e => .error e
    | .ok none => stackLoop tilesets props x y rest
    | .ok (some m) =>
      match stackLoop tilesets props x y rest with
      | .error e => .error e
      | .ok ms => .ok (m :: ms)

/-- SceneBuilder.getTileMetadataStack: out-of-bounds coordinates yield an
empty stack; otherwise visit static layers in declared order then runtime
layers in creation order. -/
def getTileMetadataStack (sb : SceneBuilder) (x y : Int) :
    Except JsError (List TileMetadata) :=
  if x < 0 ∨ x ≥ sb.config.main.width ∨ y < 0 ∨ y ≥ sb.config.main.height then .ok []
  else stackLoop sb.config.tilesets sb.config.props x y (sb.config.layers ++ sb.runtimeLayers)

/-- SceneBuilder.getProps: `Object.assign` every stack entry's props into an
initially empty object, bottom to top. -/
def getProps (sb : SceneBuilder) (x y : Int) : Except JsError JsObj :=
  match getTileMetadataStack sb x y with
  | .error e => .error e
  | .ok stack => .ok (stack.foldl (fun acc t => recAssign acc t.props) [])

/-- SceneBuilder.getPropsFromHighestTile: props of the last stack entry, or
an empty object. -/
def getPropsFromHighestTile (sb : SceneBuilder) (x y : Int) : Except JsError JsObj :=
  match getTileMetadataStack sb x y with
  | .error e => .error e
  | .ok stack =>
    match stack.getLast? with
    | none => .ok []
    | some top => .ok top.props

/-!
## Hover tracking (SceneBuilder.buildScene's onmousemove / onmouseleave)

The state is `lastHoveredTile`, initially `(-1, -1)`; the events are the
logical hover-end / hover-start firings (each is delivered to every
subscriber of the respective list, in subscription order).
-/

/-- The `lastHoveredTile` sentinel-or-cell record. -/
structure HoverPoint where
  x : Int
  y : Int
deriving DecidableEq, Repr

/-- `{x: -1, y: -1}` — the initial / cleared `lastHoveredTile`. -/
def noTile : HoverPoint := ⟨-1, -1⟩

/-- A logical hover event: hover-end for a cell, or hover-start for a cell. -/
inductive HoverEvent where
  | hoverEnd (x y : Int)
  | hoverStart (x y : Int)
deriving DecidableEq, Repr

/-- The onmousemove handler on a tile with coordinates (x, y): no events when
the cell equals `lastHoveredTile`; otherwise a hover-end for the previous
cell (when both its coordinates differ from -1) followed by a hover-start
for the new cell, which becomes the new `lastHoveredTile`. -/
def onMouseMoveStep (last : HoverPoint) (x y : Int) : HoverPoint × List HoverEvent :=
  if last.x = x ∧ last.y = y then (last, [])
  else
    let ends := if last.x ≠ -1 ∧ last.y ≠ -1 then [HoverEvent.hoverEnd last.x last.y] else []
    (⟨x, y⟩, ends ++ [HoverEvent.hoverStart x y])

/-- The onmouseleave handler of the scene wrapper: one hover-end for the
last hovered cell (when set), then `lastHoveredTile` is cleared. -/
def onMouseLeaveStep (last : HoverPoint) : HoverPoint × List HoverEvent :=
  let ends := if last.x ≠ -1 ∧ last.y ≠ -1 then [HoverEvent.hoverEnd last.x last.y] else []
  (noTile, ends)

/-!
## Concrete scenes used by the claims
-/

/-- A 2×2 scene with one static layer "bg" and no runtime layers. -/
def scene0 : SceneBuilder :=
  ⟨⟨⟨16, 2, 2⟩, [⟨"bg", [["0", "0"], ["0", "0"]]⟩], [], ⟨[], [], []⟩⟩, []⟩

/-- A 1×1 scene whose tileset short and tile code use a lowercase prefix. -/
def lowerScene : SceneBuilder :=
  ⟨⟨⟨16, 1, 1⟩, [⟨"bg", [["g1"]]⟩], [⟨"gid", "g.png", "g"⟩], ⟨[], [], []⟩⟩, []⟩

/-- The same scene with uppercase short and codes, two static layers (the
top one empty) and one runtime layer. -/
def upperScene : SceneBuilder :=
  ⟨⟨⟨16, 1, 1⟩, [⟨"bg", [["G1"]]⟩, ⟨"fg", [["0"]]⟩], [⟨"Gid", "g.png", "G"⟩], ⟨[], [], []⟩⟩,
    [⟨"rt", [["G2"]]⟩]⟩

/-- The spec's merge-precedence instance: tileset props `{a:"1"}`, layer
props `{a:"2",b:"3"}`, tile props `{b:"4"}` for the topmost (only) tile. -/
def demoScene : SceneBuilder :=
  ⟨⟨⟨16, 1, 1⟩, [⟨"L", [["T0"]]⟩], [⟨"t", "img.png", "T"⟩],
    ⟨[("t", [("a", "1")])], [("L", [("a", "2"), ("b", "3")])], [("T0", [("b", "4")])]⟩⟩, []⟩

/-- A 1×1 scene with two stacked tiles whose layer props collide on `k`. -/
def twoLayerScene : SceneBuilder :=
  ⟨⟨⟨16, 1, 1⟩, [⟨"lo", [["T0"]]⟩, ⟨"hi", [["T1"]]⟩], [⟨"t", "img.png", "T"⟩],
    ⟨[], [("lo", [("k", "low")]), ("hi", [("k", "high")])], []⟩⟩, []⟩

/-!
## C5: addTile
-/

/-- A grid with exactly `height.toNat` rows of `width.toNat` cells — the
shape of every layer built from a well-formed config or by
createEmpty2DArray. -/
def gridSized (g : List (List String)) (width height : Int) : Prop :=
  g.length = height.toNat ∧ ∀ row ∈ g, row.length = width.toNat

instance (g : List (List String)) (w h : Int) : Decidable (gridSized g w h) := by
  unfold gridSized; infer_instance

/-- Every runtime layer's grid has the configured shape (true of every
reachable state: runtime layers are built by createEmpty2DArray). -/
def runtimeWF (sb : SceneBuilder) : Prop :=
  ∀ l ∈ sb.runtimeLayers, gridSized l.tiles sb.config.main.width sb.config.main.height

/-- The 2×2 scene of `scene0` with one runtime layer "fx". -/
def sceneFx : SceneBuilder :=
  ⟨scene0.config, [⟨"fx", [["0", "0"], ["0", "0"]]⟩]⟩

/-!
## Proofs
-/

/-- The validator's success is exactly `tileCodeOk`, independent of context. -/
theorem validate_ok_iff (c ctx : String) :
    validateTileFormat c ctx = .ok () ↔ tileCodeOk c := by
  unfold validateTileFormat tileCodeOk
  by_cases h0 : jsTrim c = "0"
  · simp [h0]
  · by_cases hm : matchesTileCode (jsTrim c) = true
    · simp [h0, hm]
    · simp [h0, hm]

/-- On failure, the validator reports INVALID_TILE_SYNTAX with the trimmed
offending string in the message and the caller's context. -/
theorem validate_err (c ctx : String) (h : ¬ tileCodeOk c) :
    validateTileFormat c ctx = .error
      { code := .INVALID_TILE_FORMAT
      , message := "Invalid tile format: \"" ++ jsTrim c ++ "\". Expected like G0 or S1 or 0 for empty tiles."
      , context := some ctx
      , component := some "TileValidator" } := by
  unfold tileCodeOk at h
  push_neg at h
  unfold validateTileFormat
  simp [h.1, h.2]

/-- Digits are not letters (the two regex classes are disjoint). -/
theorem digit_not_alpha (c : Char) (h : isAsciiDigit c = true) :
    isAsciiAlpha c = false := by
  simp [isAsciiDigit] at h
  simp [isAsciiAlpha, isAsciiUpper, isAsciiLower]
  omega

/-- For an all-`p` list followed by a list whose head fails `p`, `takeWhile`
and `dropWhile` recover the two halves. -/
theorem takeWhile_dropWhile_append (p : Char → Bool) (la lb : List Char)
    (ha : ∀ a ∈ la, p a = true)
    (hb : ∀ b, lb.head? = some b → p b = false) :
    (la ++ lb).takeWhile p = la ∧ (la ++ lb).dropWhile p = lb := by
  induction la with
  | nil =>
    simp only [List.nil_append]
    cases lb with
    | nil => simp
    | cons b bs =>
      have := hb b (by simp)
      constructor
      · simp [List.takeWhile, this]
      · simp [List.dropWhile, this]
  | cons a as ih =>
    have hpa : p a = true := ha a (by simp)
    have ih2 := ih (fun x hx => ha x (by simp [hx]))
    constructor
    · simp [List.takeWhile, hpa, ih2.1]
    · simp [List.dropWhile, hpa, ih2.2]

/-- `matchesTileCode` recognises exactly the words of `[A-Za-z]+[0-9]+`:
a nonempty letter block followed by a nonempty digit block. -/
theorem matchesTileCode_iff (s : String) :
    matchesTileCode s = true ↔
      ∃ la lb : List Char, s.toList = la ++ lb ∧ la ≠ [] ∧ lb ≠ [] ∧
        (∀ ch ∈ la, isAsciiAlpha ch = true) ∧ (∀ ch ∈ lb, isAsciiDigit ch = true) := by
  constructor
  · intro h
    unfold matchesTileCode at h
    simp only [Bool.and_eq_true, Bool.not_eq_true'] at h
    obtain ⟨⟨h1, h2⟩, h3⟩ := h
    refine ⟨s.toList.takeWhile isAsciiAlpha, s.toList.dropWhile isAsciiAlpha,
      (List.takeWhile_append_dropWhile isAsciiAlpha s.toList).symm, ?_, ?_, ?_, ?_⟩
    · simpa [List.isEmpty_iff] using h1
    · simpa [List.isEmpty_iff] using h2
    · intro ch hch
      exact List.mem_takeWhile_imp hch
    · intro ch hch
      exact (List.all_eq_true.mp h3) ch hch
  · rintro ⟨la, lb, hs, hla, hlb, hall, hdig⟩
    have hhead : ∀ b, lb.head? = some b → isAsciiAlpha b = false := by
      intro b hb
      have hmem : b ∈ lb := by
        cases lb with
        | nil => simp at hb
        | cons x xs => simp at hb; simp [hb]
      exact digit_not_alpha b (hdig b hmem)
    have htd := takeWhile_dropWhile_append isAsciiAlpha la lb hall hhead
    unfold matchesTileCode
    simp only [hs, htd.1, htd.2, Bool.and_eq_true, Bool.not_eq_true']
    refine ⟨⟨?_, ?_⟩, ?_⟩
    · simpa [List.isEmpty_iff] using hla
    · simpa [List.isEmpty_iff] using hlb
    · exact List.all_eq_true.mpr (fun ch hch => hdig ch hch)

/-- C8: for every string `c`, the tile validator succeeds iff the trimmed `c`
equals "0" or fully matches `[A-Za-z]+[0-9]+`; every other shape fails with
INVALID_TILE_SYNTAX carrying the offending string and the caller-supplied
context, and the validator has no other effect (it is a pure function into
`Except`). -/
theorem c8_validator (c ctx : String) :
    (validateTileFormat c ctx = .ok () ↔
      (jsTrim c = "0" ∨
        ∃ la lb : List Char, (jsTrim c).toList = la ++ lb ∧ la ≠ [] ∧ lb ≠ [] ∧
          (∀ ch ∈ la, isAsciiAlpha ch = true) ∧ (∀ ch ∈ lb, isAsciiDigit ch = true))) ∧
    (validateTileFormat c ctx = .ok () ∨
      validateTileFormat c ctx = .error
        { code := .INVALID_TILE_FORMAT
        , message := "Invalid tile format: \"" ++ jsTrim c ++ "\". Expected like G0 or S1 or 0 for empty tiles."
        , context := some ctx
        , component := some "TileValidator" }) := by
  constructor
  · rw [validate_ok_iff]
    unfold tileCodeOk
    rw [matchesTileCode_iff]
  · by_cases h : tileCodeOk c
    · exact Or.inl ((validate_ok_iff c ctx).mpr h)
    · exact Or.inr (validate_err c ctx h)

/-- Witness for C8 at concrete inputs: "G0" passes, " S12 " passes after
trimming, "0" passes, and "G" fails with INVALID_TILE_SYNTAX. -/
theorem c8_validator_witness :
    (validateTileFormat "G0" "ctx" = .ok () ∨
      validateTileFormat "G0" "ctx" = .error
        { code := .INVALID_TILE_FORMAT
        , message := "Invalid tile format: \"" ++ jsTrim "G0" ++ "\". Expected like G0 or S1 or 0 for empty tiles."
        , context := some "ctx"
        , component := some "TileValidator" }) ∧
    validateTileFormat "G0" "ctx" = .ok () ∧
    validateTileFormat " S12 " "ctx" = .ok () ∧
    validateTileFormat "0" "ctx" = .ok () ∧
    errCode? (validateTileFormat "G" "ctx") = some .INVALID_TILE_FORMAT := by
  refine ⟨(c8_validator "G0" "ctx").2, ?_, ?_, ?_, ?_⟩
  · exact (validate_ok_iff "G0" "ctx").mpr (by decide)
  · exact (validate_ok_iff " S12 " "ctx").mpr (by decide)
  · exact (validate_ok_iff "0" "ctx").mpr (by decide)
  · rw [validate_err "G" "ctx" (by decide)]
    rfl

/-!
## Claims about the parser (C3, C4, C7, C10)
-/

/-- C3, counterexample: the source destructures `line.split('=')`, so for the
props line `layer.bg.note=a=b` the stored value is "a", not "a=b" as the
claim states. -/
theorem c3_counterexample :
    (parseConfig "[main]\ntileSize=1\nwidth=1\nheight=1\n[props]\nlayer.bg.note=a=b").toOption.map
        (fun c => recGet ((recGet c.props.layers "bg").getD []) "note")
      = some (some "a") ∧ "a" ≠ "a=b" := by
  exact ⟨by rfl, by decide⟩

/-- C3 as amended: for every non-blank, non-comment, non-section-header line,
absence of `=` fails with MISSING_KEY_VALUE; otherwise the key is the trimmed
text before the first `=` and the value is the trimmed text BETWEEN the first
and second `=` (the second component of `split('=')`) — text after a second
`=` is discarded. -/
theorem c3_amended (st : ParserState) (rawLine : String)
    (h1 : (jsTrim rawLine).toList.isEmpty = false)
    (h2 : leadsWith (jsTrim rawLine) "#" = false)
    (h3 : leadsWith (jsTrim rawLine) "[" = false) :
    ((jsSplit (jsTrim rawLine) '=').get? 1 = none →
      errCode? (parseLine st rawLine) = some .MISSING_KEY_VALUE) ∧
    (∀ v, (jsSplit (jsTrim rawLine) '=').get? 1 = some v →
      parseLine st rawLine
        = handleKeyValue (jsTrim ((jsSplit (jsTrim rawLine) '=').headD "")) (jsTrim v) st) := by
  constructor
  · intro hnone
    simp only [parseLine, h1, h2, h3, Bool.false_eq_true, if_false, hnone]
    rfl
  · intro v hv
    simp only [parseLine, h1, h2, h3, Bool.false_eq_true, if_false, hv]

/-- Witness for C3's amended theorem at concrete lines: a line without `=`
inside `[main]` fails MISSING_KEY_VALUE, and a `a=b=c`-shaped line is handled
with value "b". -/
theorem c3_amended_witness :
    errCode? (parseLine initState "tileSize") = some .MISSING_KEY_VALUE ∧
    parseLine initState "k=b=c" = handleKeyValue "k" "b" initState := by
  constructor
  · exact (c3_amended initState "tileSize" (by decide) (by decide) (by decide)).1 (by decide)
  · have h := (c3_amended initState "k=b=c" (by decide) (by decide) (by decide)).2 "b" (by decide)
    simpa using h

/-- C4, counterexample: parsing stops checking nothing about main values —
`[main]` with only `tileSize=5` parses successfully with `width` and `height`
absent, and `tileSize=-5` parses successfully although -5 is not positive. -/
theorem c4_counterexample :
    ((parseConfig "[main]\ntileSize=5").toOption.map
        (fun c => (c.main.tileSize, c.main.width, c.main.height))
      = some (some (JSNum.num 5), none, none)) ∧
    ((parseConfig "[main]\ntileSize=-5\nwidth=2\nheight=2").toOption.map
        (fun c => c.main.tileSize) = some (some (JSNum.num (-5)))) ∧
    ¬ ((0 : Int) < -5) := by
  exact ⟨by rfl, by rfl, by decide⟩

/-- C4 as amended: a parse that never stores a main key fails with
MISSING_SECTION, and unknown keys inside `[main]` fail with MISSING_KEY_VALUE
(reported as unknown main property); but known keys store `Number(value)`
with no positivity, integrality or presence check, so a successful parse may
have main fields missing, NaN, or non-positive. -/
theorem c4_amended :
    (∀ st, st.config.main = none →
        errCode? (finalizeParse st) = some .MISSING_SECTION) ∧
    (∀ k v cfg, (["tileSize", "width", "height"] : List String).contains k = false →
        errCode? (handleMain k v cfg) = some .MISSING_KEY_VALUE) ∧
    (∀ v cfg, ∃ cfg2, handleMain "tileSize" v cfg = .ok cfg2 ∧
        (cfg2.main.getD ⟨none, none, none⟩).tileSize = some (jsNumber v)) ∧
    errCode? (parseConfig "") = some .MISSING_SECTION ∧
    ((parseConfig "[main]\ntileSize=abc").toOption.map (fun c => c.main.tileSize)
      = some (some JSNum.nan)) := by
  refine ⟨?_, ?_, ?_, by rfl, by rfl⟩
  · intro st h
    simp only [finalizeParse, h]
    rfl
  · intro k v cfg h
    simp only [handleMain, h]
    rfl
  · intro v cfg
    obtain ⟨mo, ls, ts, pr⟩ := cfg
    cases mo with
    | none => exact ⟨_, rfl, rfl⟩
    | some m => exact ⟨_, rfl, rfl⟩

/-- Witness for C4's amended theorem at concrete inputs. -/
theorem c4_amended_witness :
    errCode? (finalizeParse initState) = some .MISSING_SECTION ∧
    errCode? (handleMain "foo" "1" ⟨none, [], [], ⟨[], [], []⟩⟩) = some .MISSING_KEY_VALUE := by
  exact ⟨c4_amended.1 initState rfl, c4_amended.2.1 "foo" "1" _ (by decide)⟩

/-- Success of a whole row of cells: the outputs are the trimmed cells, in
order, and each passed the validator with the row string as context. -/
theorem rowOf_ok (row : String) (cells : List String) (out : List String)
    (h : mapExc (cellOf row) cells = .ok out) :
    out = cells.map jsTrim ∧ ∀ b ∈ out, validateTileFormat b row = .ok () := by
  induction cells generalizing out with
  | nil =>
    simp only [mapExc] at h
    cases h
    simp
  | cons c cs ih =>
    simp only [mapExc] at h
    cases hv : cellOf row c with
    | error e => rw [hv] at h; cases h
    | ok b =>
      rw [hv] at h
      cases hrest : mapExc (cellOf row) cs with
      | error e => rw [hrest] at h; cases h
      | ok bs =>
        rw [hrest] at h
        cases h
        obtain ⟨h1, h2⟩ := ih bs hrest
        have hb : b = jsTrim c ∧ validateTileFormat (jsTrim c) row = .ok () := by
          simp only [cellOf] at hv
          cases hvv : validateTileFormat (jsTrim c) row with
          | error e => rw [hvv] at hv; cases hv
          | ok u => rw [hvv] at hv; cases hv; cases u; exact ⟨rfl, rfl⟩
        constructor
        · simp [hb.1, h1]
        · intro x hx
          rcases List.mem_cons.mp hx with rfl | hx2
          · rw [hb.1]; exact hb.2
          · exact h2 x hx2

/-- Success of a list of rows: the grid is the per-row split-and-trim, and
every cell of every row passed the validator. -/
theorem rowsOf_ok (rows : List String) (g : List (List String))
    (h : mapExc rowOf rows = .ok g) :
    g = rows.map (fun row => (jsSplit row ',').map jsTrim) ∧
    ∀ row ∈ rows, ∀ cell ∈ (jsSplit row ',').map jsTrim,
      validateTileFormat cell row = .ok () := by
  induction rows generalizing g with
  | nil =>
    simp only [mapExc] at h
    cases h
    simp
  | cons r rs ih =>
    simp only [mapExc] at h
    cases hv : rowOf r with
    | error e => rw [hv] at h; cases h
    | ok out =>
      rw [hv] at h
      cases hrest : mapExc rowOf rs with
      | error e => rw [hrest] at h; cases h
      | ok gs =>
        rw [hrest] at h
        cases h
        obtain ⟨h1, h2⟩ := ih gs hrest
        obtain ⟨ho1, ho2⟩ := rowOf_ok r (jsSplit r ',') out hv
        constructor
        · simp [ho1, h1]
        · intro row hrow cell hcell
          rcases List.mem_cons.mp hrow with rfl | hrow2
          · exact ho2 cell (ho1 ▸ hcell)
          · exact h2 row hrow2 cell hcell

/-- C7: a layer's `tiles` value is split on `;` into rows with blank rows
discarded, each row split on `,` into cells, each cell trimmed and checked by
the tile validator (an invalid cell fails with INVALID_TILE_SYNTAX); in
particular `tiles=G0,0;0,S1` parses to `[["G0","0"],["0","S1"]]`. -/
theorem c7_layer_tiles :
    (∀ value g, tilesGrid value = .ok g →
        g = (((jsSplit value ';').map jsTrim).filter (fun r => !r.toList.isEmpty)).map
              (fun row => (jsSplit row ',').map jsTrim) ∧
        ∀ row ∈ ((jsSplit value ';').map jsTrim).filter (fun r => !r.toList.isEmpty),
          ∀ cell ∈ (jsSplit row ',').map jsTrim,
            validateTileFormat cell row = .ok ()) ∧
    tilesGrid "G0,0;0,S1" = .ok [["G0", "0"], ["0", "S1"]] ∧
    errCode? (tilesGrid "G0,xy") = some .INVALID_TILE_FORMAT ∧
    tilesGrid "G0; ;S1" = .ok [["G0"], ["S1"]] ∧
    ((parseConfig "[main]\ntileSize=1\nwidth=2\nheight=2\n[layer:bg]\ntiles=G0,0;0,S1").toOption.map
        (fun c => c.layers)
      = some [({ name := "bg", tiles := [["G0", "0"], ["0", "S1"]] } : TWMLayer)]) := by
  refine ⟨?_, by rfl, by rfl, by rfl, by rfl⟩
  intro value g h
  exact rowsOf_ok _ g h

/-- Witness for C7's general conjunct at the spec's round-trip example. -/
theorem c7_layer_tiles_witness :
    [["G0", "0"], ["0", "S1"]]
      = (((jsSplit "G0,0;0,S1" ';').map jsTrim).filter (fun r => !r.toList.isEmpty)).map
          (fun row => (jsSplit row ',').map jsTrim) := by
  exact (c7_layer_tiles.1 "G0,0;0,S1" [["G0", "0"], ["0", "S1"]] (by rfl)).1

/-- C10: inside a tileset section, a key other than `tileset` and `short`
never fails and leaves the state unchanged (given the loop invariant that the
in-progress record is incomplete — it is flushed the moment it completes);
the end-of-input step never reads the in-progress tileset, so an incomplete
record is silently dropped with no error; and, by contrast, an unknown key in
the main section does fail. -/
theorem c10_tileset_section :
    (∀ k v st, k ≠ "tileset" → k ≠ "short" → tilesetComplete st.tempTileset = false →
        handleTileset k v st = .ok st) ∧
    (∀ (st : ParserState) (t1 t2 : TilesetDraft),
      finalizeParse { st with tempTileset := t1 }
        = finalizeParse { st with tempTileset := t2 }) ∧
    ((parseConfig "[main]\ntileSize=1\n[tileset:a]\ntileset=img.png\nfoo=bar").toOption.map
        (fun c => c.tilesets) = some []) ∧
    errCode? (handleMain "foo" "bar" ⟨none, [], [], ⟨[], [], []⟩⟩) = some .MISSING_KEY_VALUE := by
  refine ⟨?_, ?_, by rfl, by rfl⟩
  · intro k v st hk1 hk2 hcomp
    simp only [handleTileset, if_neg hk1, if_neg hk2, hcomp, Bool.false_eq_true, if_false]
  · intro st t1 t2
    rfl

/-- Witness for C10 at a concrete state and key. -/
theorem c10_tileset_section_witness :
    handleTileset "foo" "bar" initState = .ok initState := by
  exact c10_tileset_section.1 "foo" "bar" initState (by decide) (by decide) (by rfl)

/-!
## Claims about the scene builder (C1, C2, C5, C6) and hover tracking (C9)
-/

/-- C1 (code bug): getTileMetadataStack derives the tileset short with the
uppercase-only regex `/^[A-Z]+/`, so for the valid lowercase tile code "g1"
(accepted by the tile validator, and handled by createTileElement's
`/^([A-Za-z]+)(\d+)$/`) the short is `null`, no tileset resolves, and
`tileset!.id` throws a TypeError — instead of emitting a record with
tilesetShort "g" as the claim states.  With uppercase codes the function
behaves as claimed: static layers in declared order, then runtime layers,
empty-marker cells skipped, short and tileset id resolved from the prefix. -/
theorem c1_metadata_uppercase_only :
    getTileMetadataStack lowerScene 0 0 = .error .typeError ∧
    tileCodeOk "g1" ∧
    getTileMetadataStack upperScene 0 0
      = .ok [⟨"G1", "bg", "G", "Gid", []⟩, ⟨"G2", "rt", "G", "Gid", []⟩] := by
  exact ⟨by rfl, by decide, by rfl⟩

/-- C2 (code bug): a successful createRuntimeLayer appends TWO runtime-layer
records with the requested name — one pushed by createRuntimeLayer itself and
a second pushed by addRuntimeLayerToDOM — each a height×width grid of the
empty marker, where the claim (and the source's own uniqueness check) expect
exactly one new entry.  The collision path behaves as claimed: the name of an
existing static layer fails with LAYER_ALREADY_EXISTS and no state changes. -/
theorem c2_createRuntimeLayer_double_push :
    (createRuntimeLayer scene0 "fx").toOption.map (fun sb => sb.runtimeLayers)
      = some [⟨"fx", [["0", "0"], ["0", "0"]]⟩, ⟨"fx", [["0", "0"], ["0", "0"]]⟩] ∧
    errCode? (createRuntimeLayer scene0 "bg") = some .LAYER_ALREADY_EXISTS ∧
    (createRuntimeLayer scene0 "bg").toOption = none := by
  exact ⟨by rfl, by rfl, by rfl⟩

/-- C6: getProps is the left-to-right fold of the metadata stack's props
(higher layers overriding lower ones), out-of-bounds coordinates and an
empty stack yield an empty map, and on the spec's instance — tileset props
`{a:"1"}`, layer props `{a:"2",b:"3"}`, tile props `{b:"4"}` — the result is
`{a:"2", b:"4"}`. -/
theorem c6_getProps_fold :
    (∀ sb x y, getProps sb x y
        = (getTileMetadataStack sb x y).map
            (fun stack => stack.foldl (fun acc t => recAssign acc t.props) [])) ∧
    (∀ sb x y, (x < 0 ∨ x ≥ sb.config.main.width ∨ y < 0 ∨ y ≥ sb.config.main.height) →
        getProps sb x y = .ok []) ∧
    (∀ sb x y, getTileMetadataStack sb x y = .ok [] → getProps sb x y = .ok []) ∧
    getProps demoScene 0 0 = .ok [("a", "2"), ("b", "4")] ∧
    (getProps twoLayerScene 0 0).toOption.map (fun m => recGet m "k") = some (some "high") := by
  refine ⟨?_, ?_, ?_, by rfl, by rfl⟩
  · intro sb x y
    cases h : getTileMetadataStack sb x y with
    | error e => simp [getProps, h, Except.map]
    | ok stack => simp [getProps, h, Except.map]
  · intro sb x y h
    simp only [getProps, getTileMetadataStack, if_pos h]
    rfl
  · intro sb x y h
    simp [getProps, h]

/-- Witness for C6 at concrete inputs: out-of-bounds coordinates on the demo
scene give the empty map. -/
theorem c6_getProps_fold_witness :
    getProps demoScene (-1) 0 = .ok [] ∧ getProps demoScene 1 0 = .ok [] := by
  constructor
  · exact c6_getProps_fold.2.1 demoScene (-1) 0 (by decide)
  · exact c6_getProps_fold.2.1 demoScene 1 0 (by decide)

/-- C9: in the hover step relation — state `lastHoveredTile`, initially the
(-1,-1) sentinel — a move landing on the same cell emits nothing and keeps
the state; a move to a different cell emits exactly one hover-end for the
previous cell (none when there was no previous cell) followed by exactly one
hover-start for the new cell; leaving the surface emits exactly one
hover-end for the last hovered cell (none when there is none) and clears the
state.  Hence hover-start and hover-end fire at most once per entry/exit. -/
theorem c9_hover_steps (last : HoverPoint) (x y : Int)
    (hx : 0 ≤ x) (hy : 0 ≤ y)
    (hreach : last = noTile ∨ (0 ≤ last.x ∧ 0 ≤ last.y)) :
    (last = ⟨x, y⟩ → onMouseMoveStep last x y = (last, [])) ∧
    (last = noTile → last ≠ ⟨x, y⟩ →
      onMouseMoveStep last x y = (⟨x, y⟩, [HoverEvent.hoverStart x y])) ∧
    (last ≠ noTile → last ≠ ⟨x, y⟩ →
      onMouseMoveStep last x y
        = (⟨x, y⟩, [HoverEvent.hoverEnd last.x last.y, HoverEvent.hoverStart x y])) ∧
    (last ≠ noTile → onMouseLeaveStep last = (noTile, [HoverEvent.hoverEnd last.x last.y])) ∧
    (last = noTile → onMouseLeaveStep last = (noTile, [])) := by
  obtain ⟨lx, ly⟩ := last
  refine ⟨?_, ?_, ?_, ?_, ?_⟩
  · intro h
    cases h
    simp [onMouseMoveStep]
  · intro h hne
    cases h
    have hcell : ¬((-1 : Int) = x ∧ (-1 : Int) = y) := by
      intro hc
      omega
    simp [onMouseMoveStep, noTile, hcell]
  · intro hnot hne
    have hco : 0 ≤ lx ∧ 0 ≤ ly := by
      rcases hreach with h | h
      · exact absurd h hnot
      · exact h
    have hcell : ¬(lx = x ∧ ly = y) := by
      intro hc
      exact hne (by simp [hc.1, hc.2])
    have hend : lx ≠ -1 ∧ ly ≠ -1 := by omega
    simp [onMouseMoveStep, hcell, hend]
  · intro hnot
    have hco : 0 ≤ lx ∧ 0 ≤ ly := by
      rcases hreach with h | h
      · exact absurd h hnot
      · exact h
    have hend : lx ≠ -1 ∧ ly ≠ -1 := by omega
    simp [onMouseLeaveStep, hend]
  · intro h
    cases h
    simp [onMouseLeaveStep, noTile]

/-- Witness for C9, replaying the spec's scenario: entering at (0,0) emits
only hover-start (0,0); moving within (0,0) emits nothing; moving to (1,0)
emits hover-end (0,0) then hover-start (1,0); leaving emits hover-end (1,0)
and clears the state. -/
theorem c9_hover_steps_witness :
    onMouseMoveStep noTile 0 0 = (⟨0, 0⟩, [HoverEvent.hoverStart 0 0]) ∧
    onMouseMoveStep ⟨0, 0⟩ 0 0 = (⟨0, 0⟩, []) ∧
    onMouseMoveStep ⟨0, 0⟩ 1 0
      = (⟨1, 0⟩, [HoverEvent.hoverEnd 0 0, HoverEvent.hoverStart 1 0]) ∧
    onMouseLeaveStep ⟨1, 0⟩ = (noTile, [HoverEvent.hoverEnd 1 0]) := by
  refine ⟨?_, ?_, ?_, ?_⟩
  · exact (c9_hover_steps noTile 0 0 (by decide) (by decide) (Or.inl rfl)).2.1 rfl (by decide)
  · exact (c9_hover_steps ⟨0, 0⟩ 0 0 (by decide) (by decide) (Or.inr (by decide))).1 rfl
  · exact (c9_hover_steps ⟨0, 0⟩ 1 0 (by decide) (by decide) (Or.inr (by decide))).2.2.1
      (by decide) (by decide)
  · exact (c9_hover_steps ⟨1, 0⟩ 0 0 (by decide) (by decide)
      (Or.inr (by decide))).2.2.2.1 (by decide)

/-- `List.set` at an existing index is read back by `get?`. -/
theorem twGet?_set_self {α : Type} (l : List α) (i : Nat) (a : α) (h : i < l.length) :
    (l.set i a).get? i = some a := by
  induction l generalizing i with
  | nil => simp at h
  | cons x xs ih =>
    cases i with
    | zero => rfl
    | succ j =>
      simp only [List.set, List.get?]
      exact ih j (by simpa using h)

/-- `List.set` leaves every other index unchanged. -/
theorem twGet?_set_ne {α : Type} (l : List α) (i j : Nat) (a : α) (h : i ≠ j) :
    (l.set i a).get? j = l.get? j := by
  induction l generalizing i j with
  | nil => rfl
  | cons x xs ih =>
    cases i with
    | zero =>
      cases j with
      | zero => exact absurd rfl h
      | succ k => rfl
    | succ i2 =>
      cases j with
      | zero => rfl
      | succ k =>
        simp only [List.set, List.get?]
        exact ih i2 k (by omega)

/-- `List.set` past the end of the list is the identity. -/
theorem twSet_of_le {α : Type} (l : List α) (i : Nat) (a : α) (h : l.length ≤ i) :
    l.set i a = l := by
  induction l generalizing i with
  | nil => rfl
  | cons x xs ih =>
    cases i with
    | zero => simp at h
    | succ j =>
      simp only [List.set, List.cons.injEq, true_and]
      exact ih j (by simpa using h)

/-- Reading the freshly written cell. -/
theorem cellAt_setCell_self (g : List (List String)) (x y w h : Int) (v : String)
    (hg : gridSized g w h) (hx0 : 0 ≤ x) (hxw : x < w) (hy0 : 0 ≤ y) (hyh : y < h) :
    cellAt (setCell g x y v) x y = v := by
  have hylen : y.toNat < g.length := by
    rw [hg.1]; omega
  have hrow : ∃ row, g.get? y.toNat = some row := by
    rw [List.get?_eq_getElem? g y.toNat, List.getElem?_eq_getElem hylen]
    exact ⟨_, rfl⟩
  obtain ⟨row, hrowEq⟩ := hrow
  have hrowEq2 : g[y.toNat]? = some row := by
    rw [← List.get?_eq_getElem?]; exact hrowEq
  have hmem : row ∈ g := by
    obtain ⟨hlt, hEq⟩ := List.getElem?_eq_some_iff.mp hrowEq2
    exact hEq ▸ List.getElem_mem hlt
  have hrlen : x.toNat < row.length := by
    rw [hg.2 row hmem]; omega
  have hgetD : g.getD y.toNat [] = row := by
    simp [List.getD, hrowEq2]
  unfold cellAt setCell jsIndex
  rw [if_pos hy0, hgetD, twGet?_set_self g y.toNat _ hylen, Option.some_bind,
    if_pos hx0, twGet?_set_self row x.toNat v hrlen]
  rfl

/-- Every other cell reads as before the write. -/
theorem cellAt_setCell_ne (g : List (List String)) (x y x2 y2 : Int) (v : String)
    (hx0 : 0 ≤ x) (hy0 : 0 ≤ y) (hne : ¬(x2 = x ∧ y2 = y)) :
    cellAt (setCell g x y v) x2 y2 = cellAt g x2 y2 := by
  by_cases hy2 : 0 ≤ y2
  · by_cases hyy : y2 = y
    · subst hyy
      have hxx : x2 ≠ x := fun hc => hne ⟨hc, rfl⟩
      cases hrowEq : g.get? y2.toNat with
      | none =>
        have hlen : g.length ≤ y2.toNat := by
          by_contra hlt
          push_neg at hlt
          rw [List.get?_eq_getElem? g y2.toNat, List.getElem?_eq_getElem hlt] at hrowEq
          cases hrowEq
        unfold setCell
        rw [twSet_of_le g y2.toNat _ hlen]
      | some row =>
        have hrowEq2 : g[y2.toNat]? = some row := by
          rw [← List.get?_eq_getElem?]; exact hrowEq
        have hgetD : g.getD y2.toNat [] = row := by
          simp [List.getD, hrowEq2]
        have hylen : y2.toNat < g.length := by
          by_contra hge
          push_neg at hge
          rw [List.getElem?_eq_none (by omega)] at hrowEq2
          cases hrowEq2
        unfold cellAt setCell jsIndex
        rw [if_pos hy2, if_pos hy2, hgetD, twGet?_set_self g y2.toNat _ hylen, hrowEq,
          Option.some_bind, Option.some_bind]
        by_cases hx2 : 0 ≤ x2
        · rw [if_pos hx2, if_pos hx2, twGet?_set_ne row x.toNat x2.toNat v (by omega)]
        · rw [if_neg hx2, if_neg hx2]
    · unfold cellAt setCell jsIndex
      rw [if_pos hy2, if_pos hy2, twGet?_set_ne g y.toNat y2.toNat _ (by omega)]
  · unfold cellAt setCell jsIndex
    rw [if_neg hy2, if_neg hy2]

/-- `updateFirstLayer` preserves what `find?` sees for the updated name:
the first layer named `n` is replaced by its image (the update the source
performs in place), provided the update preserves the name. -/
theorem find?_updateFirst_self (ls : List TWMLayer) (n : String) (f : TWMLayer → TWMLayer)
    (hf : ∀ l, (f l).name = l.name) (l0 : TWMLayer)
    (h : ls.find? (fun l => l.name == n) = some l0) :
    (updateFirstLayer ls n f).find? (fun l => l.name == n) = some (f l0) := by
  induction ls with
  | nil => cases h
  | cons l rest ih =>
    by_cases hl : l.name == n
    · have hl0 : l0 = l := by
        simp [List.find?, hl] at h
        exact h.symm
      subst hl0
      simp [updateFirstLayer, hl, List.find?, hf]
    · simp only [List.find?, hl] at h
      simp only [updateFirstLayer, hl, Bool.false_eq_true, if_false, List.find?]
      exact ih h

/-- `updateFirstLayer` for name `n` is invisible to `find?` for any other
name. -/
theorem find?_updateFirst_other (ls : List TWMLayer) (n m : String) (f : TWMLayer → TWMLayer)
    (hf : ∀ l, (f l).name = l.name) (hnm : m ≠ n) :
    (updateFirstLayer ls n f).find? (fun l => l.name == m)
      = ls.find? (fun l => l.name == m) := by
  induction ls with
  | nil => rfl
  | cons l rest ih =>
    by_cases hl : l.name == n
    · have hln : l.name = n := by simpa using hl
      have hlm : (l.name == m) = false := by
        rw [hln, beq_eq_false_iff_ne]
        exact fun hc => hnm hc.symm
      have hflm : ((f l).name == m) = false := by
        rw [hf l]; exact hlm
      simp [updateFirstLayer, hl, List.find?, hlm, hflm]
    · simp only [updateFirstLayer, hl, Bool.false_eq_true, if_false, List.find?]
      by_cases hlm : l.name == m
      · simp [hlm]
      · simp [hlm, ih]

/-- C5: addTile validates the tile code first (an invalid code fails with
INVALID_TILE_SYNTAX before any other check); then fails LAYER_NOT_FOUND when
the name is not a runtime layer (static layers included); then fails
INVALID_TILE_POSITION outside [0,width)×[0,height); on failure the returned
value carries no new state (the source throws before any mutation); on
success exactly the cell (x, y) of the first runtime layer of that name is
set to the code — every other cell, and every other layer, reads as before. -/
theorem c5_addTile_spec (sb : SceneBuilder) (n : String) (x y : Int) (c : String) :
    (¬ tileCodeOk c → errCode? (addTile sb n x y c) = some .INVALID_TILE_FORMAT) ∧
    (tileCodeOk c → (∀ l ∈ sb.runtimeLayers, l.name ≠ n) →
      errCode? (addTile sb n x y c) = some .LAYER_NOT_FOUND) ∧
    (tileCodeOk c → (∃ l ∈ sb.runtimeLayers, l.name = n) →
      (x < 0 ∨ x ≥ sb.config.main.width ∨ y < 0 ∨ y ≥ sb.config.main.height) →
      errCode? (addTile sb n x y c) = some .INVALID_TILE_POSITION) ∧
    (tileCodeOk c → (∃ l ∈ sb.runtimeLayers, l.name = n) → runtimeWF sb →
      0 ≤ x → x < sb.config.main.width → 0 ≤ y → y < sb.config.main.height →
      ∃ sb2, addTile sb n x y c = .ok sb2 ∧
        sb2.config = sb.config ∧
        getTileCodeFromLayer sb2 n x y = c ∧
        (∀ x2 y2, ¬(x2 = x ∧ y2 = y) →
          getTileCodeFromLayer sb2 n x2 y2 = getTileCodeFromLayer sb n x2 y2) ∧
        (∀ m, m ≠ n → ∀ x2 y2,
          getTileCodeFromLayer sb2 m x2 y2 = getTileCodeFromLayer sb m x2 y2)) := by
  refine ⟨?_, ?_, ?_, ?_⟩
  · intro hbad
    simp only [addTile, validate_err c ("addTile: " ++ c) hbad]
    rfl
  · intro hok habs
    have hfind : sb.runtimeLayers.find? (fun l => l.name == n) = none := by
      rw [List.find?_eq_none]
      intro l hl
      simpa using habs l hl
    simp only [addTile, (validate_ok_iff c ("addTile: " ++ c)).mpr hok, hfind]
    rfl
  · intro hok hex hout
    have hfind : (sb.runtimeLayers.find? (fun l => l.name == n)).isSome := by
      rw [List.find?_isSome]
      obtain ⟨l, hl, hn⟩ := hex
      exact ⟨l, hl, by simpa using hn⟩
    cases hfindEq : sb.runtimeLayers.find? (fun l => l.name == n) with
    | none => rw [hfindEq] at hfind; cases hfind
    | some l0 =>
      simp only [addTile, (validate_ok_iff c ("addTile: " ++ c)).mpr hok, hfindEq, if_pos hout]
      rfl
  · intro hok hex hwf hx0 hxw hy0 hyh
    have hfind : (sb.runtimeLayers.find? (fun l => l.name == n)).isSome := by
      rw [List.find?_isSome]
      obtain ⟨l, hl, hn⟩ := hex
      exact ⟨l, hl, by simpa using hn⟩
    cases hfindEq : sb.runtimeLayers.find? (fun l => l.name == n) with
    | none => rw [hfindEq] at hfind; cases hfind
    | some l0 =>
      have hbounds : ¬(x < 0 ∨ x ≥ sb.config.main.width ∨ y < 0 ∨ y ≥ sb.config.main.height) := by
        push_neg
        exact ⟨hx0, hxw, hy0, hyh⟩
      have hname : ∀ l : TWMLayer,
          ((fun (l : TWMLayer) => { l with tiles := setCell l.tiles x y c }) l).name = l.name :=
        fun l => rfl
      refine ⟨{ sb with
                  runtimeLayers := updateFirstLayer sb.runtimeLayers n
                    (fun l => { l with tiles := setCell l.tiles x y c }) },
        ?_, rfl, ?_, ?_, ?_⟩
      · simp only [addTile, (validate_ok_iff c ("addTile: " ++ c)).mpr hok, hfindEq,
          if_neg hbounds]
      · have hup := find?_updateFirst_self sb.runtimeLayers n _ hname l0 hfindEq
        have hl0mem : l0 ∈ sb.runtimeLayers := List.mem_of_find?_eq_some hfindEq
        have hsized := hwf l0 hl0mem
        simp only [getTileCodeFromLayer, hup, Option.orElse]
        exact cellAt_setCell_self l0.tiles x y _ _ c hsized hx0 hxw hy0 hyh
      · intro x2 y2 hne
        have hup := find?_updateFirst_self sb.runtimeLayers n _ hname l0 hfindEq
        simp only [getTileCodeFromLayer, hup, hfindEq, Option.orElse]
        exact cellAt_setCell_ne l0.tiles x y x2 y2 c hx0 hy0 hne
      · intro m hm x2 y2
        have hup := find?_updateFirst_other sb.runtimeLayers n m _ hname hm
        simp only [getTileCodeFromLayer, hup]

/-- Witness for C5 at a concrete 2×2 scene with one runtime layer "fx":
placing "G5" at (1, 0) succeeds and only that cell changes; an invalid code,
a static layer name, and x = width each fail with the claimed codes. -/
theorem c5_addTile_spec_witness :
    (∃ sb2, addTile sceneFx "fx" 1 0 "G5" = .ok sb2 ∧
      sb2.config = sceneFx.config ∧
      getTileCodeFromLayer sb2 "fx" 1 0 = "G5" ∧
      (∀ x2 y2, ¬(x2 = 1 ∧ y2 = 0) →
        getTileCodeFromLayer sb2 "fx" x2 y2 = getTileCodeFromLayer sceneFx "fx" x2 y2) ∧
      (∀ m, m ≠ "fx" → ∀ x2 y2,
        getTileCodeFromLayer sb2 m x2 y2 = getTileCodeFromLayer sceneFx m x2 y2)) ∧
    errCode? (addTile scene0 "bg" 0 0 "G5") = some .LAYER_NOT_FOUND ∧
    errCode? (addTile sceneFx "fx" 2 0 "G5") = some .INVALID_TILE_POSITION ∧
    errCode? (addTile scene0 "bg" 0 0 "!!") = some .INVALID_TILE_FORMAT := by
  refine ⟨?_, ?_, ?_, ?_⟩
  · exact (c5_addTile_spec sceneFx "fx" 1 0 "G5").2.2.2
      (by decide) ⟨⟨"fx", [["0", "0"], ["0", "0"]]⟩, by simp [sceneFx], rfl⟩
      (by intro l hl; simp [sceneFx] at hl; subst hl; decide)
      (by decide) (by decide) (by decide) (by decide)
  · exact (c5_addTile_spec scene0 "bg" 0 0 "G5").2.1 (by decide)
      (by intro l hl; simp [scene0] at hl)
  · exact (c5_addTile_spec sceneFx "fx" 2 0 "G5").2.2.1
      (by decide) ⟨⟨"fx", [["0", "0"], ["0", "0"]]⟩, by simp [sceneFx], rfl⟩
      (by right; left; decide)
  · exact (c5_addTile_spec scene0 "bg" 0 0 "!!").1 (by decide)

end TileWorld
